import Mathlib

/-!
Verification development for the niomon-js library.

Each definition in this file is a shallow embedding of a function of the
TypeScript source (src/unnamed/part_000, src/unnamed/part_001,
src/src/client.ts, src/src/ditto/ethereum-provider/index.ts,
src/src/tokenManager.ts).  Stateful classes become explicit state records
plus pure transition functions; external collaborators (HTTP, storage,
randomness, hashing) become oracle parameters; observable side effects
(promise settlements, emitted events, warning logs, render calls) are
collected in explicit effect records.  JavaScript time is modelled at
millisecond resolution (Date.now returns an integer number of
milliseconds); numeric values that can carry a fractional part
(Date.now() / 1000 + expires_in) are modelled as rationals.
-/

/-- A JavaScript value as it can appear in an untyped message payload.
Absence of a field is modelled with Option at the use site; the explicit
undef constructor stands for the value undefined where it can flow as a
first-class value. -/
inductive JsValue where
  | undef : JsValue
  | null : JsValue
  | bool (b : Bool) : JsValue
  | num (n : Int) : JsValue
  | str (s : String) : JsValue
  | arr (xs : List JsValue) : JsValue
  | obj (fields : List (String × JsValue)) : JsValue
deriving Repr

/-- JavaScript truthiness of a value (undefined, null, false, 0 and the
empty string are falsy; arrays and objects are always truthy). -/
def jsTruthy : JsValue → Bool
  | JsValue.undef => false
  | JsValue.null => false
  | JsValue.bool b => b
  | JsValue.num n => n != 0
  | JsValue.str s => s != ""
  | JsValue.arr _ => true
  | JsValue.obj _ => true

/-- How a pending request promise settles: the executor registered by
request() runs (err, result) => err ? reject(err) : resolve(result). -/
inductive RpcOutcome where
  | resolved (v : Option JsValue) : RpcOutcome
  | rejected (e : JsValue) : RpcOutcome
deriving Repr

/-- receiver(payload.error, payload.result) from onMessage: the callback
rejects when the error argument is truthy, otherwise resolves with the
result (JavaScript truthiness on the error value). -/
def settleOutcome (error result : Option JsValue) : RpcOutcome :=
  match error with
  | some e => if jsTruthy e then RpcOutcome.rejected e else RpcOutcome.resolved result
  | none => RpcOutcome.resolved result

/-- The jsonrpc body of a bridge message (payload field of the envelope).
Fields that may be absent in the untyped JavaScript object are Options. -/
structure RpcPayload where
  jsonrpc : String := "2.0"
  method : Option String := none
  params : Option JsValue := none
  id : Option Nat := none
  result : Option JsValue := none
  error : Option JsValue := none
deriving Repr

/-- An inbound window message as WebMessageProviderBackend.onMessage sees
it.  sourceIsTarget models e.source === this.targetWindow; type and params
are the envelope-level data.type and data.params; payloadIsObject models
typeof data.payload === an object that the subsequent field reads can be
performed on.  (A literal null payload would pass the typeof check in
JavaScript and then throw on the jsonrpc read; no claim exercises that
corner, so it is outside the modelled message space.) -/
structure DittoMessage where
  sourceIsTarget : Bool
  type : String
  params : Option JsValue := none
  payloadIsObject : Bool := true
  payload : RpcPayload
deriving Repr

/-- Observable effects of processing one inbound message on a
WebMessageProviderBackend: promise settlements (receiver tag paired with
the outcome), events handed to the registered event handler, and warning
log lines. -/
structure BackendEffects where
  settled : List (Nat × RpcOutcome) := []
  events : List (String × List JsValue) := []
  warns : Nat := 0
deriving Repr

def BackendEffects.append (a b : BackendEffects) : BackendEffects :=
  { settled := a.settled ++ b.settled
    events := a.events ++ b.events
    warns := a.warns + b.warns }

instance : Append BackendEffects := ⟨BackendEffects.append⟩

/-- Mutable state of a WebMessageProviderBackend: the monotone id counter
and the pending-request table responseReceivers.  Each receiver closure is
identified by an opaque tag (the calling request's index); the table is an
association list keyed by request id. -/
structure BackendState where
  nextId : Nat := 0
  responseReceivers : List (Nat × Nat) := []
deriving Repr

/-- Assignment obj[id] = v on the receiver record: replace any existing
binding for the key, then add the new one. -/
def tableSet (tbl : List (Nat × Nat)) (k v : Nat) : List (Nat × Nat) :=
  tbl.filter (fun e => e.1 ≠ k) ++ [(k, v)]

/-- delete obj[id] on the receiver record. -/
def tableDelete (tbl : List (Nat × Nat)) (k : Nat) : List (Nat × Nat) :=
  tbl.filter (fun e => e.1 ≠ k)

/-- sendRawRequest: increments nextId and uses the new value as the
request id (ids are 1, 2, 3, ... in send order). -/
def sendRawRequest (st : BackendState) : BackendState × Nat :=
  let id := st.nextId + 1
  ({ st with nextId := id }, id)

/-- request(args): sends the raw request and registers the settlement
receiver for the returned id.  The receiver closure of call number tag is
identified by tag in the effects log. -/
def requestCall (st : BackendState) (tag : Nat) : BackendState :=
  let (st1, id) := sendRawRequest st
  { st1 with responseReceivers := tableSet st1.responseReceivers id tag }

/-- The notification switch of WebMessageProviderBackend.onMessage,
dispatching on payload.method.  Returns the emitted events, the number of
warnings, and whether control continues to the response-dispatch section
(the invalid ditto_event arm does an early return). -/
def notifDispatch (m : DittoMessage) : List (String × List JsValue) × Nat × Bool :=
  match m.payload.method with
  | some "ditto_ready" => ([("ditto_ready", [])], 0, true)
  | some "ditto_did_logout" => ([("ditto_did_logout", [])], 0, true)
  | some "ditto_event" =>
      match m.params with
      | some (JsValue.arr (JsValue.str name :: args)) => ([(name, args)], 0, true)
      | _ => ([], 1, false)
  | some "eth_subscription" =>
      ([("message", [JsValue.obj
          [("type", JsValue.str "eth_subscription"),
           ("data", (m.params).getD JsValue.undef)]])], 0, true)
  | _ => ([], 0, true)

/-- The response-dispatch section of onMessage: runs only when the payload
carries result or error; a falsy id (absent, or the number 0) or an id
with no receiver entry is logged and dropped; otherwise the receiver is
invoked and its entry deleted. -/
def responseDispatch (tbl : List (Nat × Nat)) (p : RpcPayload) :
    List (Nat × Nat) × List (Nat × RpcOutcome) × Nat :=
  if p.result.isSome || p.error.isSome then
    match p.id with
    | none => (tbl, [], 1)
    | some i =>
        if i = 0 then (tbl, [], 1)
        else
          match tbl.lookup i with
          | none => (tbl, [], 1)
          | some tag => (tableDelete tbl i, [(tag, settleOutcome p.error p.result)], 0)
  else (tbl, [], 0)

/-- WebMessageProviderBackend.onMessage: source check, envelope tag check,
payload object check, jsonrpc check, then notification dispatch followed
by response dispatch. -/
def onMessage (st : BackendState) (m : DittoMessage) : BackendState × BackendEffects :=
  if m.sourceIsTarget = false then (st, {})
  else if m.type ≠ "ditto_message" then (st, {})
  else if m.payloadIsObject = false then (st, {})
  else if m.payload.jsonrpc ≠ "2.0" then (st, {})
  else
    match notifDispatch m with
    | (evs, w1, false) => (st, { settled := [], events := evs, warns := w1 })
    | (evs, w1, true) =>
        let (tbl, stl, w2) := responseDispatch st.responseReceivers m.payload
        ({ st with responseReceivers := tbl },
         { settled := stl, events := evs, warns := w1 + w2 })

/-- Process a list of inbound messages in arrival order, accumulating
their observable effects. -/
def processAll (st : BackendState) (ms : List DittoMessage) : BackendState × BackendEffects :=
  ms.foldl (fun acc m => ((onMessage acc.1 m).1, acc.2 ++ (onMessage acc.1 m).2)) (st, {})

example : (requestCall {} 0).responseReceivers = [(1, 0)] := by decide

example :
    (onMessage { nextId := 1, responseReceivers := [(1, 0)] }
      { sourceIsTarget := true, type := "ditto_message",
        payload := { id := some 1, result := some (JsValue.str "pong") } }).2.settled
      = [(0, RpcOutcome.resolved (some (JsValue.str "pong")))] := rfl

/-! ## WalletAuthWidgetContainer (src/unnamed/part_000)

Same correlation logic as the bridge, but the envelope tag is
wallet_auth_message and the ready notification is dispatched on the
envelope-level data.method before the payload checks. -/

/-- An inbound message as WalletAuthWidgetContainer.onMessage sees it. -/
structure WalletMessage where
  sourceIsContent : Bool
  type : String
  method : Option String := none
  payloadIsObject : Bool := true
  payload : RpcPayload
deriving Repr

/-- Observable effects of WalletAuthWidgetContainer.onMessage: promise
settlements, calls of the onReady resolver, and warning log lines. -/
structure WalletEffects where
  settled : List (Nat × RpcOutcome) := []
  readyCalls : Nat := 0
  warns : Nat := 0
deriving Repr

/-- Pending-request table of a WalletAuthWidgetContainer. -/
structure WalletState where
  nextId : Nat := 0
  responseReceivers : List (Nat × Nat) := []
deriving Repr

/-- WalletAuthWidgetContainer.onMessage: source check, envelope tag check,
ready-notification switch on data.method, payload object check, jsonrpc
check, then the same response dispatch as the bridge. -/
def walletOnMessage (st : WalletState) (m : WalletMessage) : WalletState × WalletEffects :=
  if m.sourceIsContent = false then (st, {})
  else if m.type ≠ "wallet_auth_message" then (st, {})
  else
    let ready : Nat := if m.method = some "wallet_auth_ready" then 1 else 0
    if m.payloadIsObject = false then (st, { readyCalls := ready })
    else if m.payload.jsonrpc ≠ "2.0" then (st, { readyCalls := ready })
    else
      let (tbl, stl, w) := responseDispatch st.responseReceivers m.payload
      ({ st with responseReceivers := tbl },
       { settled := stl, readyCalls := ready, warns := w })

/-! ## WidgetContainer (src/src/ditto/ethereum-provider/index.ts)

The visibility-mode state machine.  The mode setter accepts exactly
hidden, minimized and focused; setting funnels both local assignments and
the remote ditto_mode notification. -/

/-- Observable effects of a WidgetContainer operation: render calls (with
the mode rendered), resolver calls of onReady, and warning log lines. -/
structure WidgetEffects where
  renders : List String := []
  readyCalls : Nat := 0
  warns : Nat := 0
deriving Repr

/-- Stored presentation state of a WidgetContainer. -/
structure WidgetState where
  mode : String := "hidden"
deriving Repr, DecidableEq

/-- The mode setter: a recognized mode updates the stored mode and
re-renders (render reads the just-updated mode); any other value is
logged with a warning and changes nothing.  The incoming value is an
arbitrary JavaScript value since the remote can push any params. -/
def setMode (st : WidgetState) (v : JsValue) : WidgetState × WidgetEffects :=
  match v with
  | JsValue.str "hidden" => ({ mode := "hidden" }, { renders := ["hidden"] })
  | JsValue.str "minimized" => ({ mode := "minimized" }, { renders := ["minimized"] })
  | JsValue.str "focused" => ({ mode := "focused" }, { renders := ["focused"] })
  | _ => (st, { warns := 1 })

/-- payload.params[0] as JavaScript evaluates it: indexing undefined or
null throws (modelled as none); indexing an array yields the head or
undefined; indexing a string yields its first character; indexing an
object reads its "0" property; indexing a number or boolean yields
undefined. -/
def jsIndexZero : Option JsValue → Option JsValue
  | none => none
  | some JsValue.undef => none
  | some JsValue.null => none
  | some (JsValue.arr l) => some (l.headD JsValue.undef)
  | some (JsValue.str s) => some (if s.isEmpty then JsValue.undef else JsValue.str (s.take 1))
  | some (JsValue.obj fs) => some ((fs.lookup "0").getD JsValue.undef)
  | some (JsValue.bool _) => some JsValue.undef
  | some (JsValue.num _) => some JsValue.undef

/-- An inbound message as WidgetContainer.onMessage sees it. -/
structure WidgetMessage where
  sourceIsContent : Bool
  type : String
  payloadIsObject : Bool := true
  payload : RpcPayload
deriving Repr

/-- WidgetContainer.onMessage: source check, envelope tag check, payload
object check, jsonrpc check, then the notification switch on
payload.method; ditto_mode funnels through the mode setter with
payload.params[0].  Returns none when the params indexing would throw. -/
def widgetOnMessage (st : WidgetState) (m : WidgetMessage) :
    Option (WidgetState × WidgetEffects) :=
  if m.sourceIsContent = false then some (st, {})
  else if m.type ≠ "ditto_message" then some (st, {})
  else if m.payloadIsObject = false then some (st, {})
  else if m.payload.jsonrpc ≠ "2.0" then some (st, {})
  else
    match m.payload.method with
    | some "ditto_ready" => some (st, { readyCalls := 1 })
    | some "ditto_mode" =>
        match jsIndexZero m.payload.params with
        | none => none
        | some v =>
            let (st1, eff) := setMode st v
            some (st1, { renders := eff.renders, warns := eff.warns })
    | _ => some (st, {})

/-! ## BrowserProviderBackend (src/unnamed/part_001)

Account-list caching and change notification. -/

/-- BrowserProviderBackend.handleAccountsChanged: given the cached
this.accounts (undefined before any observation) and the freshly fetched
list, returns the new cache and the accountsChanged events emitted.
lodash isEqual compares by value, and isEqual(undefined, list) is false;
the event is suppressed when the previous cache was undefined. -/
def handleAccountsChanged (cached : Option (List String)) (accounts : List String) :
    Option (List String) × List (List String) :=
  if cached = some accounts then (cached, [])
  else (some accounts, if cached = none then [] else [accounts])

example : handleAccountsChanged none ["0xabc"] = (some ["0xabc"], []) := rfl
example : handleAccountsChanged (some ["0xabc"]) ["0xdef"]
    = (some ["0xdef"], [["0xdef"]]) := rfl

/-! ## NiomonClient session manager (src/src/client.ts)

The token manager is a string key-value store; the three slots the client
writes (access_token, token_response, expires_at) are modelled as three
typed fields: the stored expires_at string is represented by the rational
number it spells (Date.now() / 1000 + expires_in can carry a fractional
part since Date.now() counts integer milliseconds).  Time is a natural
number of milliseconds; the OIDC token endpoint is an oracle. -/

/-- The token endpoint response shape accepted by the zod tokenResponse
schema. -/
structure TokenResponse where
  expires_in : ℚ
  access_token : String
  token_type : String := "Bearer"
  refresh_token : Option String := none
  scope : Option (List String) := none
  id_token : Option String := none
deriving Repr, DecidableEq

/-- The three persisted token-manager slots of one NiomonClient. -/
structure StoredState where
  access_token : Option String := none
  token_response : Option TokenResponse := none
  expires_at : Option ℚ := none
deriving Repr, DecidableEq

/-- The empty store (anonymous client). -/
def stateEmpty : StoredState := {}

/-- JavaScript truthiness of a possibly-missing string (null/undefined and
the empty string are falsy). -/
def jsTruthyOptStr : Option String → Bool
  | none => false
  | some s => s != ""

/-- parseInt(s, 10) applied to the decimal spelling of a number: digits
are consumed up to the decimal point, so the value is truncated toward
zero. -/
def jsParseInt (q : ℚ) : Int :=
  if 0 ≤ q then ⌊q⌋ else -(⌊-q⌋)

/-- NiomonClient.tokenExpiresAt: reads the expires_at slot, parseInts it,
and returns a Date (an absolute millisecond timestamp) unless the slot is
missing or parses to the falsy 0. -/
def tokenExpiresAt (s : StoredState) : Option Int :=
  match s.expires_at with
  | none => none
  | some q =>
      let n := jsParseInt q
      if n = 0 then none else some (n * 1000)

/-- NiomonClient.handleTokenResponse at time now (milliseconds): throws
when access_token is falsy (empty), otherwise writes all three slots;
expires_at is Date.now() / 1000 + expires_in. -/
def handleTokenResponse (s : StoredState) (tok : TokenResponse) (now : ℕ) :
    Except String StoredState :=
  if tok.access_token = "" then
    Except.error "exchange token request succeed but access_token is empty"
  else
    Except.ok { s with
      access_token := some tok.access_token
      token_response := some tok
      expires_at := some ((now : ℚ) / 1000 + tok.expires_in) }

/-- NiomonClient.setAccessToken: writes only the access_token slot. -/
def setAccessToken (s : StoredState) (accessToken : String) : StoredState :=
  { s with access_token := some accessToken }

/-- NiomonClient.logout: removes the access_token and token_response
slots (the expires_at slot is not touched). -/
def logout (s : StoredState) : StoredState :=
  { s with access_token := none, token_response := none }

/-- NiomonClient.refreshAccessTokenIfNeeded at time now.  oracle models
one POST to /oidc/token with grant_type refresh_token: some is a parsed
successful response, none an HTTP or parse failure.  Returns the new
store and the number of refresh HTTP requests issued.  Any error raised
by the refresh or by handleTokenResponse is swallowed by the outer catch,
leaving the store as it was. -/
def refreshAccessTokenIfNeeded (s : StoredState) (now : ℕ)
    (oracle : String → Option TokenResponse) : StoredState × ℕ :=
  match s.token_response with
  | none => (s, 0)
  | some response =>
      let refreshToken := response.refresh_token
      let expiringSoon : Bool :=
        match tokenExpiresAt s with
        | some e => decide (e - 3600000 < (now : Int))
        | none => false
      if expiringSoon && jsTruthyOptStr refreshToken then
        match oracle (refreshToken.getD "") with
        | some tok =>
            match handleTokenResponse s tok now with
            | Except.ok s1 => (s1, 1)
            | Except.error _ => (s, 1)
        | none => (s, 1)
      else (s, 0)

/-- The derived authentication status record. -/
structure AuthenticationStatus where
  accessToken : String
  refreshToken : Option String := none
  idToken : Option String := none
  expired : Bool
deriving Repr, DecidableEq

/-- NiomonClient.authenticationStatus at time now: optionally refreshes
first, then derives the status from the stored record; expired compares
the parsed expiry Date against now and is false when no expiry Date is
available.  Returns the store and refresh count alongside the status. -/
def authenticationStatus (s : StoredState) (now : ℕ)
    (oracle : String → Option TokenResponse) (refreshIfNeeded : Bool := true) :
    (StoredState × ℕ) × Option AuthenticationStatus :=
  let (s1, n) := if refreshIfNeeded then refreshAccessTokenIfNeeded s now oracle else (s, 0)
  match s1.token_response with
  | none => ((s1, n), none)
  | some response =>
      let expired : Bool :=
        match tokenExpiresAt s1 with
        | some e => decide (e < (now : Int))
        | none => false
      ((s1, n), some
        { accessToken := response.access_token
          refreshToken := response.refresh_token
          idToken := response.id_token
          expired := expired })

/-- NiomonClient.getAuthenticatedHttp at time now: optionally refreshes
first, reads the access_token slot (getTokenSilently), and fails when it
is missing or empty; on success the bearer token of the returned client
is that slot value. -/
def getAuthenticatedHttp (s : StoredState) (now : ℕ)
    (oracle : String → Option TokenResponse) (refreshIfNeeded : Bool := true) :
    (StoredState × ℕ) × Except String String :=
  let (s1, n) := if refreshIfNeeded then refreshAccessTokenIfNeeded s now oracle else (s, 0)
  match s1.access_token with
  | none => ((s1, n), Except.error "authorization is required")
  | some a =>
      if a = "" then ((s1, n), Except.error "authorization is required")
      else ((s1, n), Except.ok a)

/-- One store-mutating NiomonClient operation, timestamped where the
operation reads the clock. -/
inductive ClientOp where
  | handleToken (tok : TokenResponse) (now : ℕ) : ClientOp
  | setAccess (accessToken : String) : ClientOp
  | doLogout : ClientOp
deriving Repr, DecidableEq

/-- Apply one operation to the store; a thrown handleTokenResponse leaves
the store unchanged. -/
def applyOp (s : StoredState) : ClientOp → StoredState
  | ClientOp.handleToken tok now =>
      match handleTokenResponse s tok now with
      | Except.ok s1 => s1
      | Except.error _ => s
  | ClientOp.setAccess a => setAccessToken s a
  | ClientOp.doLogout => logout s

/-- Run a sequence of operations from a starting store. -/
def runOps (s : StoredState) (ops : List ClientOp) : StoredState :=
  ops.foldl applyOp s

/-! ## PKCE auth state (src/src/client.ts)

The short-lived session store holds the three niomon.auth_state.* keys.
Randomness and the SHA-256/base64url pipeline are oracle parameters. -/

/-- The PKCE Auth State triple. -/
structure AuthState where
  state : String
  codeVerifier : String
  codeChallenge : String
deriving Repr, DecidableEq

/-- The three session-storage slots holding the persisted auth state. -/
structure SessionStore where
  state : Option String := none
  codeVerifier : Option String := none
  codeChallenge : Option String := none
deriving Repr, DecidableEq

/-- NiomonClient.generateAuthState (called by buildAuthUrl): draws the
random state and verifier, derives the challenge with
base64url(sha256(verifier)) (the challenge pipeline is the oracle), and
persists all three to session storage. -/
def generateAuthState (challenge : String → String) (rndState rndVerifier : String) :
    SessionStore × AuthState :=
  let a : AuthState :=
    { state := rndState, codeVerifier := rndVerifier, codeChallenge := challenge rndVerifier }
  ({ state := some a.state, codeVerifier := some a.codeVerifier,
     codeChallenge := some a.codeChallenge }, a)

/-- NiomonClient.getAuthState: recovers the persisted triple, returning
undefined when any of the three slots is missing or falsy. -/
def getAuthState (stor : SessionStore) : Option AuthState :=
  match stor.state, stor.codeVerifier, stor.codeChallenge with
  | some s, some v, some c =>
      if s = "" ∨ v = "" ∨ c = "" then none else some { state := s, codeVerifier := v, codeChallenge := c }
  | _, _, _ => none

/-- The verifier-resolution step of NiomonClient.exchangeAuthCode: an
explicit truthy verifier is used as-is; otherwise the persisted auth
state is recovered and its codeVerifier used, failing when no auth state
can be found. -/
def exchangeVerifier (stor : SessionStore) (codeVerifier : Option String) :
    Except String String :=
  if jsTruthyOptStr codeVerifier then Except.ok (codeVerifier.getD "")
  else
    match getAuthState stor with
    | none => Except.error "auth state cannot be found"
    | some a => Except.ok a.codeVerifier

/-- NiomonClient.exchangeAuthCode viewed as a session-store transition:
the source performs no session-storage write in this method, so the store
passes through unchanged; the result is the PKCE verifier sent to the
token endpoint (the HTTP exchange itself is an external collaborator). -/
def exchangeAuthCodeStep (stor : SessionStore) (codeVerifier : Option String) :
    SessionStore × Except String String :=
  (stor, exchangeVerifier stor codeVerifier)

/-! ## Supporting lemmas: bridge effect algebra and pending-table facts -/

theorem BackendEffects.empty_append (a : BackendEffects) : ({} : BackendEffects) ++ a = a := by
  show BackendEffects.append {} a = a
  cases a
  simp [BackendEffects.append]

theorem BackendEffects.append_empty (a : BackendEffects) : a ++ ({} : BackendEffects) = a := by
  show BackendEffects.append a {} = a
  cases a
  simp [BackendEffects.append]

theorem BackendEffects.append_assoc (a b c : BackendEffects) :
    a ++ b ++ c = a ++ (b ++ c) := by
  show BackendEffects.append (BackendEffects.append a b) c
      = BackendEffects.append a (BackendEffects.append b c)
  cases a; cases b; cases c
  simp [BackendEffects.append, Nat.add_assoc]

/-- Deleting one key from the table does not change the lookup of any
other key. -/
theorem lookup_tableDelete_ne (tbl : List (Nat × Nat)) (j k : Nat) (h : k ≠ j) :
    (tableDelete tbl j).lookup k = tbl.lookup k := by
  induction tbl with
  | nil => rfl
  | cons e t ih =>
      rcases e with ⟨a, b⟩
      by_cases ha : a = j
      · have hfilter : tableDelete ((a, b) :: t) j = tableDelete t j := by
          simp [tableDelete, List.filter_cons, ha]
        have hlk : List.lookup k ((a, b) :: t) = List.lookup k t := by
          have hf : (k == a) = false := by subst ha; simp [h]
          simp [List.lookup, hf]
        rw [hfilter, hlk, ih]
      · have hfilter : tableDelete ((a, b) :: t) j = (a, b) :: tableDelete t j := by
          simp [tableDelete, List.filter_cons, ha]
        rw [hfilter]
        by_cases hk : k = a
        · have hf : (k == a) = true := by simp [hk]
          simp [List.lookup, hf]
        · have hf : (k == a) = false := by simp [hk]
          simp [List.lookup, hf, ih]

/-- Looking up a mapped key in a keyed map of an injective key function
finds the associated value. -/
theorem lookup_map_pair (f g : Nat → Nat) (l : List Nat)
    (hinj : ∀ a b, f a = f b → a = b) (i : Nat) (hi : i ∈ l) :
    ((l.map (fun x => (f x, g x))).lookup (f i)) = some (g i) := by
  induction l with
  | nil => cases hi
  | cons a t ih =>
      by_cases hfa : f i = f a
      · have : i = a := hinj _ _ hfa
        subst this
        simp [List.lookup]
      · have hne : (f i == f a) = false := by simp [hfa]
        have hit : i ∈ t := by
          rcases List.mem_cons.mp hi with h | h
          · exact absurd (congrArg f h) hfa
          · exact h
        simp [List.lookup, hne, ih hit]

/-- After N request() calls on a fresh bridge, the id counter is N and the
pending table maps id i+1 to the receiver of call i, for each i < N. -/
theorem requestsState_eq (N : Nat) :
    (List.range N).foldl requestCall {} =
      ({ nextId := N,
         responseReceivers := (List.range N).map (fun i => (i + 1, i)) } : BackendState) := by
  induction N with
  | zero => rfl
  | succ n ih =>
      rw [List.range_succ, List.foldl_append, ih]
      simp only [List.foldl_cons, List.foldl_nil, List.range_succ, List.map_append,
        List.map_cons, List.map_nil]
      show ({ nextId := n + 1,
              responseReceivers := tableSet ((List.range n).map (fun i => (i + 1, i))) (n + 1) n }
            : BackendState) = _
      have hfilter :
          ((List.range n).map (fun i => (i + 1, i))).filter (fun e => e.1 ≠ n + 1)
            = (List.range n).map (fun i => (i + 1, i)) := by
        apply List.filter_eq_self.mpr
        intro e he
        rcases List.mem_map.mp he with ⟨i, hi, rfl⟩
        have : i < n := List.mem_range.mp hi
        simp
        omega
      simp [tableSet, hfilter]
      omega

/-- A pure response message carrying result or error for request id j, as
the remote would send it back over the channel. -/
def responseMsg (res err : Nat → Option JsValue) (j : Nat) : DittoMessage :=
  { sourceIsTarget := true, type := "ditto_message", params := none, payloadIsObject := true,
    payload := { jsonrpc := "2.0", method := none, params := none, id := some j,
                 result := res j, error := err j } }

/-- Processing one response message: a matching pending entry is settled
with that response's outcome and deleted; otherwise the message is only
logged. -/
theorem onMessage_responseMsg (st : BackendState) (res err : Nat → Option JsValue) (j : Nat)
    (hre : (res j).isSome ∨ (err j).isSome) (hj : j ≠ 0) :
    onMessage st (responseMsg res err j) =
      match st.responseReceivers.lookup j with
      | none => (st, { settled := [], events := [], warns := 1 })
      | some tag =>
          ({ st with responseReceivers := tableDelete st.responseReceivers j },
           { settled := [(tag, settleOutcome (err j) (res j))], events := [], warns := 0 }) := by
  have hor : ((res j).isSome || (err j).isSome) = true := by
    rcases hre with h | h <;> simp [h]
  simp only [onMessage, responseMsg, notifDispatch, responseDispatch, hor]
  simp [hj]
  cases st.responseReceivers.lookup j <;> rfl

/-- Unfolding processAll over a cons cell: the effects of the head
message are prepended to those of the tail. -/
theorem processAll_cons (st : BackendState) (m : DittoMessage) (ms : List DittoMessage) :
    processAll st (m :: ms) =
      ((processAll (onMessage st m).1 ms).1,
       (onMessage st m).2 ++ (processAll (onMessage st m).1 ms).2) := by
  have aux : ∀ (l : List DittoMessage) (s : BackendState) (e : BackendEffects),
      l.foldl (fun acc m => ((onMessage acc.1 m).1, acc.2 ++ (onMessage acc.1 m).2)) (s, e)
        = ((processAll s l).1, e ++ (processAll s l).2) := by
    intro l
    induction l with
    | nil =>
        intro s e
        simp [processAll, BackendEffects.append_empty]
    | cons m' l' ih =>
        intro s e
        show l'.foldl _ ((onMessage s m').1, e ++ (onMessage s m').2) = _
        rw [ih]
        conv_rhs => rw [show processAll s (m' :: l')
          = l'.foldl (fun acc m => ((onMessage acc.1 m).1, acc.2 ++ (onMessage acc.1 m).2))
              ((onMessage s m').1, ({} : BackendEffects) ++ (onMessage s m').2) from rfl]
        rw [ih]
        simp [BackendEffects.empty_append, BackendEffects.append_assoc]
  calc processAll st (m :: ms)
      = ms.foldl (fun acc m => ((onMessage acc.1 m).1, acc.2 ++ (onMessage acc.1 m).2))
          ((onMessage st m).1, ({} : BackendEffects) ++ (onMessage st m).2) := rfl
    _ = ((processAll (onMessage st m).1 ms).1,
          (({} : BackendEffects) ++ (onMessage st m).2) ++ (processAll (onMessage st m).1 ms).2) :=
        aux ms _ _
    _ = ((processAll (onMessage st m).1 ms).1,
          (onMessage st m).2 ++ (processAll (onMessage st m).1 ms).2) := by
        rw [BackendEffects.empty_append]

/-- Processing a run of response messages with pairwise-distinct ids that
all have pending entries: every response settles exactly its own receiver
with its own outcome, in arrival order, with no warnings and no events,
and exactly the processed entries leave the table. -/
theorem processResponses (res err : Nat → Option JsValue) :
    ∀ (ids : List Nat) (st : BackendState),
    ids.Nodup →
    (∀ j ∈ ids, j ≠ 0 ∧ (st.responseReceivers.lookup j).isSome ∧
        ((res j).isSome ∨ (err j).isSome)) →
    processAll st (ids.map (responseMsg res err)) =
      ({ st with responseReceivers := ids.foldl tableDelete st.responseReceivers },
       { settled := ids.map (fun j => ((st.responseReceivers.lookup j).iget,
            settleOutcome (err j) (res j))),
         events := [], warns := 0 }) := by
  intro ids
  induction ids with
  | nil =>
      intro st _ _
      rfl
  | cons j rest ih =>
      intro st hnd hmem
      obtain ⟨hj0, hsome, hre⟩ := hmem j (List.mem_cons_self j rest)
      obtain ⟨tag, hlook⟩ := Option.isSome_iff_exists.mp hsome
      have hjrest : j ∉ rest := (List.nodup_cons.mp hnd).1
      have hndr : rest.Nodup := (List.nodup_cons.mp hnd).2
      have hmsg : onMessage st (responseMsg res err j)
          = ({ st with responseReceivers := tableDelete st.responseReceivers j },
             { settled := [(tag, settleOutcome (err j) (res j))],
               events := [], warns := 0 }) := by
        rw [onMessage_responseMsg st res err j hre hj0, hlook]
      have hmem' : ∀ k ∈ rest, k ≠ 0 ∧
          ((tableDelete st.responseReceivers j).lookup k).isSome ∧
          ((res k).isSome ∨ (err k).isSome) := by
        intro k hk
        obtain ⟨h0, hs, hr⟩ := hmem k (List.mem_cons_of_mem _ hk)
        have hkj : k ≠ j := fun he => hjrest (he ▸ hk)
        rw [lookup_tableDelete_ne _ _ _ hkj]
        exact ⟨h0, hs, hr⟩
      have hmapeq : rest.map (fun k => (((tableDelete st.responseReceivers j).lookup k).iget,
            settleOutcome (err k) (res k)))
          = rest.map (fun k => ((st.responseReceivers.lookup k).iget,
            settleOutcome (err k) (res k))) := by
        apply List.map_congr_left
        intro k hk
        have hkj : k ≠ j := fun he => hjrest (he ▸ hk)
        rw [lookup_tableDelete_ne _ _ _ hkj]
      rw [List.map_cons, processAll_cons, hmsg]
      rw [ih ({ st with responseReceivers := tableDelete st.responseReceivers j }) hndr hmem']
      refine Prod.ext rfl ?_
      show BackendEffects.append _ _ = _
      simp only [BackendEffects.append, hmapeq]
      simp [hlook, List.map_cons]

/-- In a duplicate-free list, filtering for one member keeps exactly that
one occurrence. -/
theorem filter_beq_eq_singleton (l : List Nat) (a : Nat) (d : l.Nodup) (h : a ∈ l) :
    l.filter (fun x => x == a) = [a] := by
  induction l with
  | nil => cases h
  | cons b t ih =>
      rcases List.nodup_cons.mp d with ⟨hb, ht⟩
      by_cases hab : b = a
      · subst hab
        have hnil : t.filter (fun x => x == b) = [] := by
          apply List.filter_eq_nil_iff.mpr
          intro x hx
          simp only [beq_iff_eq]
          intro he
          exact hb (he ▸ hx)
        simp [List.filter_cons, hnil]
      · have hat : a ∈ t := by
          rcases List.mem_cons.mp h with h1 | h1
          · exact absurd h1.symm hab
          · exact h1
        have hf : (b == a) = false := by simp [hab]
        simp [List.filter_cons, hf, ih ht hat]

/-- C1 core theorem: after N request() calls on one fresh bridge, if the
responses arrive in an arbitrary permutation of send order, the promise
of each call i settles exactly once, with the outcome carried by the
response addressed to its own id i+1 and never a value addressed to
another id. -/
theorem c1_request_response_correlation (N : Nat) (arrival : List Nat)
    (res err : Nat → Option JsValue)
    (hperm : arrival.Perm ((List.range N).map (fun i => i + 1)))
    (hre : ∀ j ∈ arrival, (res j).isSome ∨ (err j).isSome) :
    ∀ i, i < N →
    ((processAll ((List.range N).foldl requestCall {})
        (arrival.map (responseMsg res err))).2.settled.filter (fun e => e.1 == i))
      = [(i, settleOutcome (err (i + 1)) (res (i + 1)))] := by
  intro i hi
  have hnodupR : (((List.range N).map (fun i => i + 1)) : List Nat).Nodup :=
    List.Nodup.map (fun a b h => Nat.add_right_cancel h) (List.nodup_range N)
  have hnd : arrival.Nodup := (hperm.nodup_iff).mpr hnodupR
  have hmem_iff : ∀ j, j ∈ arrival ↔ ∃ k, k < N ∧ j = k + 1 := by
    intro j
    rw [hperm.mem_iff, List.mem_map]
    constructor
    · rintro ⟨k, hk, rfl⟩
      exact ⟨k, List.mem_range.mp hk, rfl⟩
    · rintro ⟨k, hk, rfl⟩
      exact ⟨k, List.mem_range.mpr hk, rfl⟩
  have hlookup : ∀ k, k < N →
      (((List.range N).map (fun i => (i + 1, i))).lookup (k + 1)) = some k := by
    intro k hk
    exact lookup_map_pair (fun x => x + 1) (fun x => x) (List.range N)
      (fun a b h => Nat.add_right_cancel h) k (List.mem_range.mpr hk)
  rw [requestsState_eq]
  have hmem : ∀ j ∈ arrival, j ≠ 0 ∧
      ((({ nextId := N, responseReceivers := (List.range N).map (fun i => (i + 1, i)) }
          : BackendState).responseReceivers).lookup j).isSome ∧
      ((res j).isSome ∨ (err j).isSome) := by
    intro j hj
    obtain ⟨k, hk, rfl⟩ := (hmem_iff j).mp hj
    refine ⟨by omega, ?_, hre _ hj⟩
    show ((((List.range N).map (fun i => (i + 1, i))).lookup (k + 1))).isSome
    rw [hlookup k hk]
    rfl
  rw [processResponses res err arrival _ hnd hmem]
  show (arrival.map (fun j => ((((List.range N).map (fun i => (i + 1, i))).lookup j).iget,
      settleOutcome (err j) (res j)))).filter (fun e => e.1 == i) = _
  have hmap : arrival.map (fun j => ((((List.range N).map (fun i => (i + 1, i))).lookup j).iget,
        settleOutcome (err j) (res j)))
      = arrival.map (fun j => (j - 1, settleOutcome (err j) (res j))) := by
    apply List.map_congr_left
    intro j hj
    obtain ⟨k, hk, rfl⟩ := (hmem_iff j).mp hj
    rw [hlookup k hk]
    simp
  rw [hmap, List.filter_map]
  have hfeq : arrival.filter ((fun (e : Nat × RpcOutcome) => e.1 == i)
        ∘ (fun j => (j - 1, settleOutcome (err j) (res j))))
      = arrival.filter (fun j => j == i + 1) := by
    apply List.filter_congr
    intro j hj
    obtain ⟨k, hk, rfl⟩ := (hmem_iff j).mp hj
    show ((k + 1 - 1 : Nat) == i) = ((k + 1) == (i + 1))
    simp only [Nat.add_sub_cancel]
    by_cases hki : k = i
    · simp [hki]
    · have h1 : (k == i) = false := by simp [hki]
      have h2 : ((k + 1) == (i + 1)) = false := by
        simp
        omega
      rw [h1, h2]
  rw [hfeq, filter_beq_eq_singleton arrival (i + 1) hnd ((hmem_iff (i + 1)).mpr ⟨i, hi, rfl⟩)]
  simp

/-- Witness for C1: two concurrent requests, responses arriving in
reverse order; call 0 settles exactly once, with the result addressed to
its own id 1. -/
theorem c1_witness :
    ((processAll ((List.range 2).foldl requestCall {})
        (([2, 1] : List Nat).map (responseMsg (fun j => some (JsValue.num (j : Int)))
          (fun _ => none)))).2.settled.filter (fun e => e.1 == 0))
      = [(0, settleOutcome none (some (JsValue.num 1)))] :=
  c1_request_response_correlation 2 [2, 1]
    (fun j => some (JsValue.num (j : Int))) (fun _ => none)
    (by decide) (by decide) 0 (by decide)

/-- C2: an inbound response payload (result or error present) whose id is
absent (or the falsy 0) or has no entry in the pending-request table
settles no pending promise and leaves the pending-request table (and the
whole bridge state) unchanged; its only observable effect is one warning
log line.  Stated for both correlation layers: WebMessageProviderBackend
and WalletAuthWidgetContainer (for the latter, response payloads carry no
envelope-level ready notification). -/
theorem c2_stale_response_no_effect :
    (∀ (st : BackendState) (m : DittoMessage),
      m.sourceIsTarget = true → m.type = "ditto_message" → m.payloadIsObject = true →
      m.payload.jsonrpc = "2.0" →
      (m.payload.result.isSome ∨ m.payload.error.isSome) →
      (m.payload.id = none ∨ m.payload.id = some 0 ∨
        (∀ j, m.payload.id = some j → st.responseReceivers.lookup j = none)) →
      (∀ sm, m.payload.method = some sm →
        sm ∉ (["ditto_ready", "ditto_did_logout", "ditto_event", "eth_subscription"]
          : List String)) →
      onMessage st m = (st, { settled := [], events := [], warns := 1 }))
    ∧ (∀ (st : WalletState) (m : WalletMessage),
      m.sourceIsContent = true → m.type = "wallet_auth_message" →
      m.method ≠ some "wallet_auth_ready" → m.payloadIsObject = true →
      m.payload.jsonrpc = "2.0" →
      (m.payload.result.isSome ∨ m.payload.error.isSome) →
      (m.payload.id = none ∨ m.payload.id = some 0 ∨
        (∀ j, m.payload.id = some j → st.responseReceivers.lookup j = none)) →
      walletOnMessage st m = (st, { settled := [], readyCalls := 0, warns := 1 })) := by
  have hresp : ∀ (tbl : List (Nat × Nat)) (p : RpcPayload),
      (p.result.isSome ∨ p.error.isSome) →
      (p.id = none ∨ p.id = some 0 ∨ (∀ j, p.id = some j → tbl.lookup j = none)) →
      responseDispatch tbl p = (tbl, [], 1) := by
    intro tbl p hre hid
    have hor : (p.result.isSome || p.error.isSome) = true := by
      rcases hre with h | h <;> simp [h]
    unfold responseDispatch
    rw [hor]
    simp only [if_true]
    rcases hid with h | h | h
    · rw [h]
    · rw [h]
      rfl
    · cases hpid : p.id with
      | none => rfl
      | some j =>
          by_cases hj : j = 0
          · simp [hj]
          · simp [hj, h j hpid]
  constructor
  · intro st m h1 h2 h3 h4 hre hid hm
    have hnotif : notifDispatch m = ([], 0, true) := by
      unfold notifDispatch
      cases hme : m.payload.method with
      | none => rfl
      | some sm =>
          have := hm sm hme
          simp only [List.mem_cons, List.mem_singleton] at this
          push_neg at this
          obtain ⟨n1, n2, n3, n4⟩ := this
          simp [n1, n2, n3, n4]
    unfold onMessage
    rw [h1, h2, h3, h4]
    simp only [Bool.true_eq_false, if_false, ne_eq, not_true_eq_false, if_neg,
      not_false_eq_true]
    rw [hnotif, hresp st.responseReceivers m.payload hre hid]
    rfl
  · intro st m h1 h2 hm h3 h4 hre hid
    have hready : (if m.method = some "wallet_auth_ready" then 1 else 0) = 0 := by
      simp [hm]
    unfold walletOnMessage
    rw [h1, h2, h3, h4]
    simp only [Bool.true_eq_false, if_false, ne_eq, not_true_eq_false, if_neg,
      not_false_eq_true]
    rw [hresp st.responseReceivers m.payload hre hid, hready]

/-- Witness for C2: a response for the never-issued id 7 on a bridge with
one pending request, and a response with an absent id on a wallet
container; each yields only a warning. -/
theorem c2_witness :
    onMessage (requestCall {} 0)
      { sourceIsTarget := true, type := "ditto_message",
        payload := { id := some 7, result := some (JsValue.str "x") } }
      = (requestCall {} 0, { settled := [], events := [], warns := 1 })
    ∧ walletOnMessage { nextId := 1, responseReceivers := [(1, 0)] }
      { sourceIsContent := true, type := "wallet_auth_message",
        payload := { id := none, error := some (JsValue.str "boom") } }
      = ({ nextId := 1, responseReceivers := [(1, 0)] },
         { settled := [], readyCalls := 0, warns := 1 }) := by
  constructor
  · exact c2_stale_response_no_effect.1 (requestCall {} 0) _ rfl rfl rfl rfl
      (Or.inl (by decide))
      (Or.inr (Or.inr (by intro j hj; cases hj; decide)))
      (by intro sm hsm; cases hsm)
  · exact c2_stale_response_no_effect.2 { nextId := 1, responseReceivers := [(1, 0)] } _
      rfl rfl (by decide) rfl rfl
      (Or.inr (by decide))
      (Or.inl rfl)

/-- C7: an inbound message that passes the source, envelope-tag and
jsonrpc checks and whose notification method is ditto_event with params
[name, arg1, ..., argK] (name a string, read from the envelope-level
data.params exactly as the source does) makes WebMessageProviderBackend
emit an event named name with arguments arg1..argK to its registered
handler: the event name is the first positional parameter and the rest
become the arguments.  For a pure notification (no result or error) the
bridge state is untouched and nothing else is observable. -/
theorem c7_ditto_event_indirection (st : BackendState) (name : String)
    (args : List JsValue) (pid : Option Nat) (pparams : Option JsValue) :
    onMessage st
      { sourceIsTarget := true, type := "ditto_message",
        params := some (JsValue.arr (JsValue.str name :: args)),
        payload := { jsonrpc := "2.0", method := some "ditto_event", params := pparams,
                     id := pid, result := none, error := none } }
      = (st, { settled := [], events := [(name, args)], warns := 0 }) := rfl

/-- A remote ditto_mode notification carrying the single positional
parameter v, as WidgetContainer.onMessage receives it. -/
def dittoModeMsg (v : JsValue) : WidgetMessage :=
  { sourceIsContent := true, type := "ditto_message",
    payload := { jsonrpc := "2.0", method := some "ditto_mode",
                 params := some (JsValue.arr [v]) } }

/-- C8: assigning a value outside the set of string values hidden,
minimized, focused to WidgetContainer.mode, whether by a local set or
via a remote ditto_mode notification (both funnel through the same
setter), leaves the stored mode and the rendered presentation unchanged
and logs exactly one warning; assigning a value inside the set updates
the stored mode and re-renders it. -/
theorem c8_unknown_mode_rejected (st : WidgetState) (v : JsValue) :
    ((v ≠ JsValue.str "hidden" ∧ v ≠ JsValue.str "minimized" ∧ v ≠ JsValue.str "focused") →
      setMode st v = (st, { renders := [], readyCalls := 0, warns := 1 })
      ∧ widgetOnMessage st (dittoModeMsg v)
          = some (st, { renders := [], readyCalls := 0, warns := 1 }))
    ∧ (∀ s : String, v = JsValue.str s →
        (s = "hidden" ∨ s = "minimized" ∨ s = "focused") →
        setMode st v = ({ mode := s }, { renders := [s], readyCalls := 0, warns := 0 })
        ∧ widgetOnMessage st (dittoModeMsg v)
            = some ({ mode := s }, { renders := [s], readyCalls := 0, warns := 0 })) := by
  have hfunnel : ∀ v' : JsValue, widgetOnMessage st (dittoModeMsg v')
      = some ((setMode st v').1,
        { renders := (setMode st v').2.renders, readyCalls := 0,
          warns := (setMode st v').2.warns }) := by
    intro v'
    rfl
  constructor
  · rintro ⟨h1, h2, h3⟩
    have hset : setMode st v = (st, { renders := [], readyCalls := 0, warns := 1 }) := by
      unfold setMode
      split
      · exact absurd rfl h1
      · exact absurd rfl h2
      · exact absurd rfl h3
      · rfl
    refine ⟨hset, ?_⟩
    rw [hfunnel, hset]
  · rintro s rfl hs
    rcases hs with rfl | rfl | rfl <;>
      exact ⟨rfl, by rw [hfunnel]; rfl⟩

/-- Witness for C8: the unknown mode "fullscreen" is rejected with only a
warning, and the valid mode "focused" is stored and rendered, via both
the local setter and the remote notification. -/
theorem c8_witness :
    (setMode { mode := "hidden" } (JsValue.str "fullscreen")
        = ({ mode := "hidden" }, { renders := [], readyCalls := 0, warns := 1 })
      ∧ widgetOnMessage { mode := "hidden" } (dittoModeMsg (JsValue.str "fullscreen"))
        = some ({ mode := "hidden" }, { renders := [], readyCalls := 0, warns := 1 }))
    ∧ (setMode { mode := "hidden" } (JsValue.str "focused")
        = ({ mode := "focused" }, { renders := ["focused"], readyCalls := 0, warns := 0 })
      ∧ widgetOnMessage { mode := "hidden" } (dittoModeMsg (JsValue.str "focused"))
        = some ({ mode := "focused" }, { renders := ["focused"], readyCalls := 0, warns := 0 })) :=
  ⟨(c8_unknown_mode_rejected { mode := "hidden" } (JsValue.str "fullscreen")).1
      (by refine ⟨?_, ?_, ?_⟩ <;> intro h <;> simp at h),
   (c8_unknown_mode_rejected { mode := "hidden" } (JsValue.str "focused")).2
      "focused" rfl (Or.inr (Or.inr rfl))⟩

/-- C9: in BrowserProviderBackend, a bridged eth_accounts fetch whose
list equals the cached accounts by value emits no accountsChanged; the
very first observed list (cached value still undefined) updates the
cache silently; a later fetch whose list differs in value emits
accountsChanged with the new list and updates the cache. -/
theorem c9_accounts_changed_dedup (l l' : List String) :
    handleAccountsChanged (some l) l = (some l, [])
    ∧ handleAccountsChanged none l = (some l, [])
    ∧ (l ≠ l' → handleAccountsChanged (some l) l' = (some l', [l'])) := by
  refine ⟨?_, ?_, ?_⟩
  · simp [handleAccountsChanged]
  · simp [handleAccountsChanged]
  · intro h
    have hne : ¬ (some l = some l') := by
      intro he
      exact h (Option.some.injEq l l' ▸ he)
    simp [handleAccountsChanged, hne]

/-- Witness for C9: the first observation of a non-empty list is silent;
a later change to a different list emits the event. -/
theorem c9_witness :
    handleAccountsChanged none ["0xabc"] = (some ["0xabc"], [])
    ∧ handleAccountsChanged (some ["0xabc"]) ["0xdef"]
        = (some ["0xdef"], [["0xdef"]]) :=
  ⟨(c9_accounts_changed_dedup ["0xabc"] ["0xdef"]).2.1,
   (c9_accounts_changed_dedup ["0xabc"] ["0xdef"]).2.2 (by decide)⟩

/-- C10: handleTokenResponse called with a token response whose
access_token is empty throws the error exactly worded in the source and
leaves every persisted slot exactly as it was before the call. -/
theorem c10_empty_access_token_rejected (s : StoredState) (tok : TokenResponse) (now : ℕ)
    (h : tok.access_token = "") :
    handleTokenResponse s tok now
      = Except.error "exchange token request succeed but access_token is empty"
    ∧ applyOp s (ClientOp.handleToken tok now) = s := by
  constructor
  · simp [handleTokenResponse, h]
  · simp [applyOp, handleTokenResponse, h]

/-- Witness for C10: a concrete empty-token response against a populated
store. -/
theorem c10_witness :
    handleTokenResponse
        { access_token := some "old", token_response := none, expires_at := some 5 }
        { expires_in := 3600, access_token := "" } 1000
      = Except.error "exchange token request succeed but access_token is empty"
    ∧ applyOp { access_token := some "old", token_response := none, expires_at := some 5 }
        (ClientOp.handleToken { expires_in := 3600, access_token := "" } 1000)
      = { access_token := some "old", token_response := none, expires_at := some 5 } :=
  c10_empty_access_token_rejected _ _ 1000 rfl

/-- Counterexample for C5 as stated: setAccessToken writes only the
access-token slot, so after it runs on a fresh client a persisted access
token is present while the persisted expiry is absent, violating the
claimed invariant on a sequence that includes setAccessToken. -/
theorem c5_counterexample :
    (runOps stateEmpty [ClientOp.setAccess "A"]).access_token = some "A"
    ∧ (runOps stateEmpty [ClientOp.setAccess "A"]).expires_at = none :=
  ⟨rfl, rfl⟩

/-- C5 amended: over sequences of handleTokenResponse and logout
operations (setAccessToken excluded, since it stores a token with no
expiry), a present access token implies that some handleTokenResponse in
the sequence succeeded with that token at some receipt time, the full
response record is persisted, and the persisted expiry equals that
receipt time plus the response's expires_in. -/
theorem c5_token_expiry_invariant (ops : List ClientOp)
    (hno : ∀ a : String, ClientOp.setAccess a ∉ ops) :
    ∀ tokA, (runOps stateEmpty ops).access_token = some tokA →
      ∃ tok now, ClientOp.handleToken tok now ∈ ops
        ∧ tok.access_token = tokA
        ∧ (runOps stateEmpty ops).token_response = some tok
        ∧ (runOps stateEmpty ops).expires_at
            = some ((now : ℚ) / 1000 + tok.expires_in) := by
  induction ops using List.reverseRecOn with
  | nil =>
      intro tokA h
      simp [runOps, stateEmpty] at h
  | append_singleton l op ih =>
      have hno' : ∀ a : String, ClientOp.setAccess a ∉ l := by
        intro a ha
        exact hno a (List.mem_append_left _ ha)
      have hrun : runOps stateEmpty (l ++ [op]) = applyOp (runOps stateEmpty l) op := by
        simp [runOps, List.foldl_append]
      intro tokA h
      rw [hrun] at h
      cases op with
      | setAccess a =>
          exact absurd (List.mem_append_right l (List.mem_singleton_self _)) (hno a)
      | doLogout =>
          simp [applyOp, logout] at h
      | handleToken tok now =>
          by_cases he : tok.access_token = ""
          · have herr : applyOp (runOps stateEmpty l) (ClientOp.handleToken tok now)
                = runOps stateEmpty l := by
              simp [applyOp, handleTokenResponse, he]
            rw [herr] at h
            obtain ⟨tok', now', hmem, ha, hr, hq⟩ := ih hno' tokA h
            exact ⟨tok', now', List.mem_append_left _ hmem, ha, by rw [hrun, herr]; exact hr,
              by rw [hrun, herr]; exact hq⟩
          · have hok : applyOp (runOps stateEmpty l) (ClientOp.handleToken tok now)
                = { runOps stateEmpty l with
                    access_token := some tok.access_token
                    token_response := some tok
                    expires_at := some ((now : ℚ) / 1000 + tok.expires_in) } := by
              simp [applyOp, handleTokenResponse, he]
            rw [hok] at h
            have htokA : tok.access_token = tokA := by
              simpa using h
            refine ⟨tok, now, List.mem_append_right l (List.mem_singleton_self _), htokA,
              ?_, ?_⟩
            · rw [hrun, hok]
            · rw [hrun, hok]

/-- Witness for C5 amended: one successful token response followed by a
logout and a second response; the store reflects the second response and
its receipt time. -/
theorem c5_witness :
    ∃ tok now,
      ClientOp.handleToken tok now ∈
        [ClientOp.handleToken { expires_in := 60, access_token := "A" } 1000,
         ClientOp.doLogout,
         ClientOp.handleToken { expires_in := 7200, access_token := "B" } 2000]
      ∧ tok.access_token = "B"
      ∧ (runOps stateEmpty
          [ClientOp.handleToken { expires_in := 60, access_token := "A" } 1000,
           ClientOp.doLogout,
           ClientOp.handleToken { expires_in := 7200, access_token := "B" } 2000]).token_response
          = some tok
      ∧ (runOps stateEmpty
          [ClientOp.handleToken { expires_in := 60, access_token := "A" } 1000,
           ClientOp.doLogout,
           ClientOp.handleToken { expires_in := 7200, access_token := "B" } 2000]).expires_at
          = some ((now : ℚ) / 1000 + tok.expires_in) :=
  c5_token_expiry_invariant
    [ClientOp.handleToken { expires_in := 60, access_token := "A" } 1000,
     ClientOp.doLogout,
     ClientOp.handleToken { expires_in := 7200, access_token := "B" } 2000]
    (fun a ha => by simp at ha) "B" (by decide)

/-- Counterexample for C6 as stated: exchangeAuthCode performs no
session-storage write, so after one exchange has recovered the persisted
codeVerifier a second exchangeAuthCode without an explicit verifier and
without an intervening buildAuthUrl recovers and reuses the very same
verifier instead of failing with the auth-state-not-found error. -/
theorem c6_counterexample :
    (exchangeAuthCodeStep (generateAuthState (fun _ => "c") "s" "v").1 none).2
      = Except.ok "v"
    ∧ (exchangeAuthCodeStep
        (exchangeAuthCodeStep (generateAuthState (fun _ => "c") "s" "v").1 none).1 none).2
      = Except.ok "v"
    ∧ (exchangeAuthCodeStep
        (exchangeAuthCodeStep (generateAuthState (fun _ => "c") "s" "v").1 none).1 none).2
      ≠ Except.error "auth state cannot be found" := by
  refine ⟨rfl, rfl, ?_⟩
  intro h
  simp [exchangeAuthCodeStep, exchangeVerifier, generateAuthState, getAuthState,
    jsTruthyOptStr] at h

/-- C6 amended: the persisted PKCE auth state is not consumed by a code
exchange.  After buildAuthUrl persists a fresh auth state (all three
components non-empty), every exchangeAuthCode call without an explicit
verifier recovers that same persisted codeVerifier, including repeated
calls, since the exchange never clears the storage; the auth-state-not-
found error occurs exactly when no usable auth state is persisted. -/
theorem c6_auth_state_not_consumed (challenge : String → String) (rs rv : String)
    (hrs : rs ≠ "") (hrv : rv ≠ "") (hc : challenge rv ≠ "") :
    (exchangeAuthCodeStep (generateAuthState challenge rs rv).1 none).2 = Except.ok rv
    ∧ (exchangeAuthCodeStep
        (exchangeAuthCodeStep (generateAuthState challenge rs rv).1 none).1 none).2
      = Except.ok rv
    ∧ (∀ stor : SessionStore, getAuthState stor = none →
        (exchangeAuthCodeStep stor none).2 = Except.error "auth state cannot be found") := by
  have hget : getAuthState (generateAuthState challenge rs rv).1
      = some { state := rs, codeVerifier := rv, codeChallenge := challenge rv } := by
    simp [generateAuthState, getAuthState, hrs, hrv, hc]
  refine ⟨?_, ?_, ?_⟩
  · simp [exchangeAuthCodeStep, exchangeVerifier, jsTruthyOptStr, hget]
  · simp [exchangeAuthCodeStep, exchangeVerifier, jsTruthyOptStr, hget]
  · intro stor hnone
    simp [exchangeAuthCodeStep, exchangeVerifier, jsTruthyOptStr, hnone]

/-- Witness for C6 amended: a concrete generated auth state is reused by
two successive exchanges, and a cleared store fails. -/
theorem c6_witness :
    (exchangeAuthCodeStep (generateAuthState (fun _ => "ch") "st" "ver").1 none).2
      = Except.ok "ver"
    ∧ (exchangeAuthCodeStep
        (exchangeAuthCodeStep (generateAuthState (fun _ => "ch") "st" "ver").1 none).1 none).2
      = Except.ok "ver"
    ∧ (exchangeAuthCodeStep ({} : SessionStore) none).2
      = Except.error "auth state cannot be found" := by
  obtain ⟨h1, h2, h3⟩ := c6_auth_state_not_consumed (fun _ => "ch") "st" "ver"
    (by decide) (by decide) (by decide)
  exact ⟨h1, h2, h3 {} rfl⟩

/-- authenticationStatus with the refresh flag set issues exactly the
refresh requests of refreshAccessTokenIfNeeded (it performs no further
refresh of its own). -/
theorem authenticationStatus_refresh_count (s : StoredState) (now : ℕ)
    (oracle : String → Option TokenResponse) :
    (authenticationStatus s now oracle true).1.2
      = (refreshAccessTokenIfNeeded s now oracle).2 := by
  unfold authenticationStatus
  rcases hr : refreshAccessTokenIfNeeded s now oracle with ⟨s1, n⟩
  simp only [if_true]
  cases h : s1.token_response <;> rfl

/-- getAuthenticatedHttp with the refresh flag set issues exactly the
refresh requests of refreshAccessTokenIfNeeded. -/
theorem getAuthenticatedHttp_refresh_count (s : StoredState) (now : ℕ)
    (oracle : String → Option TokenResponse) :
    (getAuthenticatedHttp s now oracle true).1.2
      = (refreshAccessTokenIfNeeded s now oracle).2 := by
  unfold getAuthenticatedHttp
  rcases hr : refreshAccessTokenIfNeeded s now oracle with ⟨s1, n⟩
  simp only [if_true]
  cases h : s1.access_token with
  | none => rfl
  | some a => by_cases ha : a = "" <;> simp [ha]


/-- In the refreshing branch, one HTTP refresh request is issued no
matter how the refresh call turns out. -/
theorem refresh_branch_count (s : StoredState) (now : ℕ)
    (oracle : String → Option TokenResponse) (rt : String) :
    (match oracle rt with
     | some tok =>
         match handleTokenResponse s tok now with
         | Except.ok s1 => (s1, 1)
         | Except.error _ => (s, 1)
     | none => (s, (1 : ℕ))).2 = 1 := by
  cases horacle : oracle rt with
  | none => rfl
  | some tok =>
      show (match handleTokenResponse s tok now with
            | Except.ok s1 => (s1, 1)
            | Except.error _ => (s, (1 : ℕ))).2 = 1
      cases handleTokenResponse s tok now <;> rfl

/-- C3 amended: for authenticationStatus(refreshIfNeeded = true) and
getAuthenticatedHttp(refreshIfNeeded = true), a token-refresh HTTP
request is issued if and only if a stored token record with a non-empty
refresh token exists and the stored expires_at, truncated to whole
seconds by the parseInt read-back (with the truncated value 0 treated as
no expiry), lies less than one hour in the future, including
already-expired tokens; and at most one refresh request is issued per
call, never a retry loop. -/
theorem c3_refresh_window (s : StoredState) (now : ℕ)
    (oracle : String → Option TokenResponse) :
    ((refreshAccessTokenIfNeeded s now oracle).2 = 1 ↔
      ∃ tok rt q, s.token_response = some tok ∧ tok.refresh_token = some rt ∧ rt ≠ ""
        ∧ s.expires_at = some q ∧ jsParseInt q ≠ 0
        ∧ jsParseInt q * 1000 - 3600000 < (now : Int))
    ∧ (refreshAccessTokenIfNeeded s now oracle).2 ≤ 1
    ∧ (authenticationStatus s now oracle true).1.2
        = (refreshAccessTokenIfNeeded s now oracle).2
    ∧ (getAuthenticatedHttp s now oracle true).1.2
        = (refreshAccessTokenIfNeeded s now oracle).2 := by
  refine ⟨?_, ?_, authenticationStatus_refresh_count s now oracle,
    getAuthenticatedHttp_refresh_count s now oracle⟩
  · obtain ⟨sa, sr, sq⟩ := s
    cases sr with
    | none =>
        have h0 : (refreshAccessTokenIfNeeded ⟨sa, none, sq⟩ now oracle).2 = 0 := rfl
        rw [h0]
        constructor
        · intro h
          simp at h
        · rintro ⟨tok, rt, q, h1, _⟩
          cases h1
    | some response =>
        have hunfold : refreshAccessTokenIfNeeded ⟨sa, some response, sq⟩ now oracle
            = if (match tokenExpiresAt ⟨sa, some response, sq⟩ with
                  | some e => decide (e - 3600000 < (now : Int))
                  | none => false) && jsTruthyOptStr response.refresh_token then
                match oracle (response.refresh_token.getD "") with
                | some tok =>
                    match handleTokenResponse ⟨sa, some response, sq⟩ tok now with
                    | Except.ok s1 => (s1, 1)
                    | Except.error _ => (⟨sa, some response, sq⟩, 1)
                | none => (⟨sa, some response, sq⟩, 1)
              else (⟨sa, some response, sq⟩, 0) := rfl
        rw [hunfold]
        by_cases hb : ((match tokenExpiresAt ⟨sa, some response, sq⟩ with
            | some e => decide (e - 3600000 < (now : Int))
            | none => false) && jsTruthyOptStr response.refresh_token) = true
        · rw [if_pos hb, refresh_branch_count]
          simp only [true_iff]
          simp only [Bool.and_eq_true] at hb
          obtain ⟨he, hrt⟩ := hb
          obtain ⟨rt, hrtval⟩ : ∃ rt, response.refresh_token = some rt := by
            cases h : response.refresh_token with
            | none => rw [h] at hrt; cases hrt
            | some rt => exact ⟨rt, rfl⟩
          have hrtne : rt ≠ "" := by
            rw [hrtval] at hrt
            simpa [jsTruthyOptStr] using hrt
          obtain ⟨q, hq, hz, hlt⟩ : ∃ q, sq = some q ∧ jsParseInt q ≠ 0
              ∧ jsParseInt q * 1000 - 3600000 < (now : Int) := by
            cases hqe : sq with
            | none =>
                rw [show tokenExpiresAt ⟨sa, some response, sq⟩ = none from by
                  simp [tokenExpiresAt, hqe]] at he
                cases he
            | some q =>
                by_cases hz : jsParseInt q = 0
                · rw [show tokenExpiresAt ⟨sa, some response, sq⟩ = none from by
                    simp [tokenExpiresAt, hqe, hz]] at he
                  cases he
                · rw [show tokenExpiresAt ⟨sa, some response, sq⟩
                      = some (jsParseInt q * 1000) from by
                    simp [tokenExpiresAt, hqe, hz]] at he
                  exact ⟨q, rfl, hz, by simpa using he⟩
          exact ⟨response, rt, q, rfl, hrtval, hrtne, hq, hz, hlt⟩
        · rw [if_neg hb]
          constructor
          · intro h
            simp at h
          · rintro ⟨tok, rt, q, h1, h2, h3, h4, h5, h6⟩
            have hresp2 : response = tok := by
              have h1' : some response = some tok := h1
              injection h1'
            subst hresp2
            have hsq : sq = some q := h4
            exfalso
            apply hb
            have hte : tokenExpiresAt ⟨sa, some response, sq⟩
                = some (jsParseInt q * 1000) := by
              simp [tokenExpiresAt, hsq, h5]
            rw [hte, h2]
            simp [jsTruthyOptStr, h3, h6]
  · obtain ⟨sa, sr, sq⟩ := s
    cases sr with
    | none => exact Nat.zero_le 1
    | some response =>
        have hunfold : refreshAccessTokenIfNeeded ⟨sa, some response, sq⟩ now oracle
            = if (match tokenExpiresAt ⟨sa, some response, sq⟩ with
                  | some e => decide (e - 3600000 < (now : Int))
                  | none => false) && jsTruthyOptStr response.refresh_token then
                match oracle (response.refresh_token.getD "") with
                | some tok =>
                    match handleTokenResponse ⟨sa, some response, sq⟩ tok now with
                    | Except.ok s1 => (s1, 1)
                    | Except.error _ => (⟨sa, some response, sq⟩, 1)
                | none => (⟨sa, some response, sq⟩, 1)
              else (⟨sa, some response, sq⟩, 0) := rfl
        rw [hunfold]
        by_cases hb : ((match tokenExpiresAt ⟨sa, some response, sq⟩ with
            | some e => decide (e - 3600000 < (now : Int))
            | none => false) && jsTruthyOptStr response.refresh_token) = true
        · rw [if_pos hb, refresh_branch_count]
        · rw [if_neg hb]
          exact Nat.zero_le 1

/-- The token response of the C3 counterexample: 7200 s lifetime with a
refresh token, received at millisecond 500. -/
def tokC3 : TokenResponse :=
  { expires_in := 7200, access_token := "A", refresh_token := some "R" }

/-- The store persisted by handleTokenResponse for tokC3 at time 500 ms:
expires_at carries the fractional second. -/
def sC3 : StoredState :=
  { access_token := some "A", token_response := some tokC3,
    expires_at := some (((500 : ℕ) : ℚ) / 1000 + 7200) }

/-- Counterexample for C3 as stated: at now = 3600400 ms the stored
expires_at (7200.5 s) satisfies expires_at - 3600 s = 3600.5 s, which is
NOT less than now = 3600.4 s, so the claimed condition says no refresh
may be issued; yet the code, comparing against the parseInt-truncated
expiry 7200 s, issues one refresh request. -/
theorem c3_counterexample :
    handleTokenResponse stateEmpty tokC3 500 = Except.ok sC3
    ∧ (refreshAccessTokenIfNeeded sC3 3600400 (fun _ => none)).2 = 1
    ∧ ∀ q, sC3.expires_at = some q → ¬ (q - 3600 < (3600400 : ℚ) / 1000) := by
  refine ⟨rfl, ?_, ?_⟩
  · have hq : (((500 : ℕ) : ℚ) / 1000 + 7200) = 14401 / 2 := by norm_num
    have hfl : jsParseInt (((500 : ℕ) : ℚ) / 1000 + 7200) = 7200 := by
      rw [hq, jsParseInt, if_pos (by norm_num), Int.floor_eq_iff]
      constructor <;> norm_num
    have hte : tokenExpiresAt sC3 = some 7200000 := by
      show (if jsParseInt (((500 : ℕ) : ℚ) / 1000 + 7200) = 0 then none
            else some (jsParseInt (((500 : ℕ) : ℚ) / 1000 + 7200) * 1000)) = some 7200000
      rw [hfl]
      norm_num
    show (if (match tokenExpiresAt sC3 with
              | some e => decide (e - 3600000 < ((3600400 : ℕ) : Int))
              | none => false) && jsTruthyOptStr tokC3.refresh_token then
            match (fun _ : String => (none : Option TokenResponse))
                (tokC3.refresh_token.getD "") with
            | some tok =>
                match handleTokenResponse sC3 tok 3600400 with
                | Except.ok s1 => (s1, 1)
                | Except.error _ => (sC3, 1)
            | none => (sC3, 1)
          else (sC3, 0)).2 = 1
    rw [hte]
    norm_num [jsTruthyOptStr, tokC3]
    simp
  · intro q hq'
    have h' : some (((500 : ℕ) : ℚ) / 1000 + 7200) = some q := hq'
    injection h' with h'
    subst h'
    norm_num

/-- C4 amended: handleTokenResponse at time T (milliseconds) with a
non-empty access token A and lifetime E persists expires_at = T + E
exactly (including any fractional second of T); a subsequent
authenticationStatus with silent refresh disabled returns accessToken A,
and its expired flag compares now against the parseInt-TRUNCATED expiry:
expired is true exactly when the whole-second truncation of T + E
(scaled to milliseconds) is strictly less than now.  In particular
expired can already be true at instants strictly before T + E (see the
counterexample), so the strict bound of the original claim holds only at
whole-second receipt times. -/
theorem c4_expiry_tracking (s0 : StoredState) (tok : TokenResponse) (T : ℕ)
    (hA : tok.access_token ≠ "") :
    ∃ s, handleTokenResponse s0 tok T = Except.ok s
      ∧ s.expires_at = some ((T : ℚ) / 1000 + tok.expires_in)
      ∧ ∀ (now : ℕ) (oracle : String → Option TokenResponse),
          jsParseInt ((T : ℚ) / 1000 + tok.expires_in) ≠ 0 →
          (authenticationStatus s now oracle false).2
            = some { accessToken := tok.access_token,
                     refreshToken := tok.refresh_token,
                     idToken := tok.id_token,
                     expired := decide (jsParseInt ((T : ℚ) / 1000 + tok.expires_in) * 1000
                        < (now : Int)) } := by
  refine Exists.intro
    ({ s0 with
        access_token := some tok.access_token
        token_response := some tok
        expires_at := some ((T : ℚ) / 1000 + tok.expires_in) }) ⟨?_, rfl, ?_⟩
  · simp [handleTokenResponse, hA]
  · intro now oracle hz
    have hte : tokenExpiresAt
        ({ s0 with
            access_token := some tok.access_token
            token_response := some tok
            expires_at := some ((T : ℚ) / 1000 + tok.expires_in) })
        = some (jsParseInt ((T : ℚ) / 1000 + tok.expires_in) * 1000) := by
      simp [tokenExpiresAt, hz]
    have hshape : (authenticationStatus
        ({ s0 with
            access_token := some tok.access_token
            token_response := some tok
            expires_at := some ((T : ℚ) / 1000 + tok.expires_in) }) now oracle false).2
        = some { accessToken := tok.access_token,
                 refreshToken := tok.refresh_token,
                 idToken := tok.id_token,
                 expired := match tokenExpiresAt
                     ({ s0 with
                         access_token := some tok.access_token
                         token_response := some tok
                         expires_at := some ((T : ℚ) / 1000 + tok.expires_in) }) with
                   | some e => decide (e < (now : Int))
                   | none => false } := rfl
    rw [hshape, hte]

/-- The token response of the C4 counterexample: lifetime 3600 s,
received at millisecond 500. -/
def tokC4 : TokenResponse := { expires_in := 3600, access_token := "A" }

/-- The store persisted by handleTokenResponse for tokC4 at time 500 ms:
expires_at is the fractional 3600.5 s. -/
def sC4 : StoredState :=
  { access_token := some "A", token_response := some tokC4,
    expires_at := some (((500 : ℕ) : ℚ) / 1000 + 3600) }

/-- Counterexample for C4 as stated: with T = 500 ms and E = 3600 s the
instant now = 3600200 ms lies strictly before T + E = 3600500 ms, yet
authenticationStatus already reports expired = true, because the
parseInt read-back truncates the persisted 3600.5 s expiry to 3600 s. -/
theorem c4_counterexample :
    handleTokenResponse stateEmpty tokC4 500 = Except.ok sC4
    ∧ (3600200 : ℕ) < 500 + 3600 * 1000
    ∧ (authenticationStatus sC4 3600200 (fun _ => none) true).2
        = some { accessToken := "A", refreshToken := none, idToken := none,
                 expired := true } := by
  refine ⟨rfl, by decide, ?_⟩
  have hfl : jsParseInt (((500 : ℕ) : ℚ) / 1000 + 3600) = 3600 := by
    rw [show (((500 : ℕ) : ℚ) / 1000 + 3600) = 7201 / 2 from by norm_num,
      jsParseInt, if_pos (by norm_num), Int.floor_eq_iff]
    constructor <;> norm_num
  have hte : tokenExpiresAt sC4 = some 3600000 := by
    show (if jsParseInt (((500 : ℕ) : ℚ) / 1000 + 3600) = 0 then none
          else some (jsParseInt (((500 : ℕ) : ℚ) / 1000 + 3600) * 1000)) = some 3600000
    rw [hfl]
    norm_num
  have hrefresh : refreshAccessTokenIfNeeded sC4 3600200 (fun _ => none) = (sC4, 0) := by
    show (if (match tokenExpiresAt sC4 with
              | some e => decide (e - 3600000 < ((3600200 : ℕ) : Int))
              | none => false) && jsTruthyOptStr tokC4.refresh_token then
            match (fun _ : String => (none : Option TokenResponse))
                (tokC4.refresh_token.getD "") with
            | some tok =>
                match handleTokenResponse sC4 tok 3600200 with
                | Except.ok s1 => (s1, 1)
                | Except.error _ => (sC4, 1)
            | none => (sC4, 1)
          else (sC4, 0)) = (sC4, 0)
    rw [hte]
    norm_num [jsTruthyOptStr, tokC4]
  have hstat : (authenticationStatus sC4 3600200 (fun _ => none) true).2
      = some { accessToken := tokC4.access_token,
               refreshToken := tokC4.refresh_token,
               idToken := tokC4.id_token,
               expired := match tokenExpiresAt sC4 with
                 | some e => decide (e < ((3600200 : ℕ) : Int))
                 | none => false } := by
    unfold authenticationStatus
    simp only [if_true]
    rw [hrefresh]
    rfl
  rw [hstat, hte]
  rfl

/-- Witness for C4 amended: a whole-second receipt time T = 0 with
E = 3600 s; the status carries the token and the truncated-expiry
comparison. -/
theorem c4_witness :
    ∃ s, handleTokenResponse stateEmpty { expires_in := 3600, access_token := "W" } 0
        = Except.ok s
      ∧ s.expires_at = some (((0 : ℕ) : ℚ) / 1000 + (3600 : ℚ))
      ∧ ∀ (now : ℕ) (oracle : String → Option TokenResponse),
          jsParseInt (((0 : ℕ) : ℚ) / 1000 + (3600 : ℚ)) ≠ 0 →
          (authenticationStatus s now oracle false).2
            = some { accessToken := "W", refreshToken := none, idToken := none,
                     expired := decide (jsParseInt (((0 : ℕ) : ℚ) / 1000 + (3600 : ℚ)) * 1000
                        < (now : Int)) } :=
  c4_expiry_tracking stateEmpty { expires_in := 3600, access_token := "W" } 0 (by decide)

/-- Witness for C3 amended: on an anonymous store no refresh is issued
and the per-call bound holds. -/
theorem c3_witness :
    (refreshAccessTokenIfNeeded stateEmpty 0 (fun _ => none)).2 ≤ 1 :=
  (c3_refresh_window stateEmpty 0 (fun _ => none)).2.1

/-- Witness for C7: a concrete accountsChanged push through the
ditto_event envelope reaches the handler under its real name. -/
theorem c7_witness :
    onMessage {}
      { sourceIsTarget := true, type := "ditto_message",
        params := some (JsValue.arr [JsValue.str "accountsChanged", JsValue.arr []]),
        payload := { jsonrpc := "2.0", method := some "ditto_event", params := none,
                     id := none, result := none, error := none } }
      = ({}, { settled := [], events := [("accountsChanged", [JsValue.arr []])], warns := 0 }) :=
  c7_ditto_event_indirection {} "accountsChanged" [JsValue.arr []] none none
